import Mathlib

/-!
Shallow embedding of the quiz core of the Hina application
(adaptive quiz generation, session lifecycle, progress scoring and the
client answer queue), together with proofs about it.

Percentages, weights and accuracies are modelled as rationals, ids as
naturals, and the relational store as lists of rows.  Server operations
become functions `DB → DB × Except String α`: the returned `DB` is the
store after the call (unchanged on the error paths, as the original
code throws before writing).
-/

namespace Hina

/-! ## Progress scoring (`src/features/quizzes/lib/complete-quiz.ts`) -/

/-- Minimum percentage required to unlock the next module. -/
def UNLOCK_THRESHOLD : ℚ := 80

/-- Minimum percentage to consider a module completed. -/
def COMPLETION_THRESHOLD : ℚ := 100

/-- `calculateNewProgress` from `complete-quiz.ts`: first session uses the
raw quiz percentage, later sessions use a 60/40 weighted blend, floored at
`previous - 10` (but not below 0) and capped at 100. -/
def calculateNewProgress (currentProgress quizPercentage : ℚ)
    (sessionCount : ℕ) : ℚ :=
  if sessionCount ≤ 1 then
    quizPercentage
  else
    let weight : ℚ := 2 / 5
    let newProgress := currentProgress * (1 - weight) + quizPercentage * weight
    let minProgress := max 0 (currentProgress - 10)
    max minProgress (min 100 newProgress)

/-! ## Data model -/

/-- A syllabary character row (`Character` in the schema); also stands for
the `QuizCharacter` projection `{id, character, reading, type}` used by
`start-quiz.ts`, which keeps exactly these fields. -/
structure Character where
  id : ℕ
  character : String
  reading : String
  type : String
deriving DecidableEq, Repr

/-- A `QuizSession` row. -/
structure QuizSessionRow where
  id : ℕ
  userId : ℕ
  moduleId : ℕ
  totalItems : ℕ
  score : ℕ
  startedAt : ℕ
  completedAt : Option ℕ
deriving DecidableEq, Repr

/-- A `QuizAnswer` row. -/
structure QuizAnswerRow where
  sessionId : ℕ
  characterId : ℕ
  userAnswer : String
  isCorrect : Bool
  responseTimeMs : Option ℕ
deriving DecidableEq, Repr

/-- A `UserCharacterStats` row. -/
structure UserCharacterStatsRow where
  userId : ℕ
  characterId : ℕ
  totalAttempts : ℕ
  correctCount : ℕ
  streakCount : ℕ
  lastAttemptAt : ℕ
deriving DecidableEq, Repr

/-- A `UserProgress` row. -/
structure UserProgressRow where
  userId : ℕ
  moduleId : ℕ
  percentage : ℚ
deriving DecidableEq, Repr

/-- The relational store, one list per table. -/
structure DB where
  characters : List Character
  sessions : List QuizSessionRow
  answers : List QuizAnswerRow
  stats : List UserCharacterStatsRow
  progress : List UserProgressRow
deriving DecidableEq, Repr

/-! ## Correctness comparison rules -/

/-- JavaScript `toLowerCase()`: character-wise lowercasing, written as a
map over the character list (the same function as `String.toLower`, in a
form the kernel can evaluate). -/
def strToLower (s : String) : String := String.mk (s.data.map Char.toLower)

/-- The server-side correctness check in `submitAnswer`
(`submit-answer.ts`): case-insensitive comparison of the submitted text
with the character's stored reading. -/
def serverIsCorrect (userAnswer reading : String) : Bool :=
  strToLower userAnswer == strToLower reading

/-- The client-side correctness check in `QuizContainer.handleAnswer`:
case-insensitive comparison of the chosen option with the question's
correct answer. -/
def clientIsCorrect (answer correctAnswer : String) : Bool :=
  strToLower answer == strToLower correctAnswer

/-! ## Session lifecycle operations -/

/-- Result payload of `submitAnswer`. -/
structure AnswerResult where
  isCorrect : Bool
  correctAnswer : String
  streakCount : ℕ
  accuracy : ℚ
deriving DecidableEq, Repr

/-- `submitAnswer` from `submit-answer.ts`.  Guards: the session must
exist for this user and be incomplete; the (session, character) pair must
not be answered yet; the character must exist.  On success it appends the
answer row, increments the session score when correct, and upserts the
per-character stats. -/
def submitAnswer (db : DB) (userId sessionId characterId : ℕ)
    (userAnswer : String) (responseTimeMs : Option ℕ) (now : ℕ) :
    DB × Except String AnswerResult :=
  match db.sessions.find? (fun s =>
      s.id == sessionId && s.userId == userId && s.completedAt == none) with
  | none => (db, .error "Quiz session not found or already completed")
  | some _ =>
    match db.answers.find? (fun a =>
        a.sessionId == sessionId && a.characterId == characterId) with
    | some _ => (db, .error "Character already answered in this session")
    | none =>
      match db.characters.find? (fun c => c.id == characterId) with
      | none => (db, .error "Character not found")
      | some character =>
        let isCorrect := serverIsCorrect userAnswer character.reading
        let answers' := db.answers ++
          [⟨sessionId, characterId, userAnswer, isCorrect, responseTimeMs⟩]
        let sessions' :=
          if isCorrect then
            db.sessions.map (fun s =>
              if s.id == sessionId then { s with score := s.score + 1 } else s)
          else db.sessions
        match db.stats.find? (fun r =>
            r.userId == userId && r.characterId == characterId) with
        | some existingStats =>
          let newStreakCount :=
            if isCorrect then existingStats.streakCount + 1 else 0
          let newTotalAttempts := existingStats.totalAttempts + 1
          let newCorrectCount :=
            existingStats.correctCount + (if isCorrect then 1 else 0)
          let stats' := db.stats.map (fun r =>
            if r.userId == userId && r.characterId == characterId then
              { r with
                totalAttempts := newTotalAttempts
                correctCount := newCorrectCount
                streakCount := newStreakCount
                lastAttemptAt := now }
            else r)
          ({ db with answers := answers', sessions := sessions', stats := stats' },
           .ok ⟨isCorrect, character.reading, newStreakCount,
                mkRat newCorrectCount newTotalAttempts⟩)
        | none =>
          let newStreakCount : ℕ := if isCorrect then 1 else 0
          let newTotalAttempts : ℕ := 1
          let newCorrectCount : ℕ := if isCorrect then 1 else 0
          let stats' := db.stats ++
            [⟨userId, characterId, newTotalAttempts, newCorrectCount,
              newStreakCount, now⟩]
          ({ db with answers := answers', sessions := sessions', stats := stats' },
           .ok ⟨isCorrect, character.reading, newStreakCount,
                mkRat newCorrectCount newTotalAttempts⟩)

/-- A pre-scored answer sent on the batch path
(`BatchAnswer` in `submit-answers-batch.ts`). -/
structure BatchAnswer where
  characterId : ℕ
  userAnswer : String
  isCorrect : Bool
  responseTimeMs : ℕ
deriving DecidableEq, Repr

/-- Result payload of `submitAnswersBatch`. -/
structure BatchSubmitResult where
  score : ℕ
  totalItems : ℕ
deriving DecidableEq, Repr

/-- One iteration of the stats loop inside `submitAnswersBatch`'s
transaction: upsert the (user, character) stats row for one answer,
incrementing attempts, conditionally the correct count, and
incrementing or resetting the streak. -/
def upsertStatsForBatch (userId now : ℕ) (stats : List UserCharacterStatsRow)
    (answer : BatchAnswer) : List UserCharacterStatsRow :=
  match stats.find? (fun r =>
      r.userId == userId && r.characterId == answer.characterId) with
  | some _ =>
    stats.map (fun r =>
      if r.userId == userId && r.characterId == answer.characterId then
        { r with
          totalAttempts := r.totalAttempts + 1
          correctCount := r.correctCount + (if answer.isCorrect then 1 else 0)
          streakCount := if answer.isCorrect then r.streakCount + 1 else 0
          lastAttemptAt := now }
      else r)
  | none =>
    stats ++ [⟨userId, answer.characterId, 1,
               (if answer.isCorrect then 1 else 0),
               (if answer.isCorrect then 1 else 0), now⟩]

/-- `submitAnswersBatch` from `submit-answers-batch.ts`.  Guards: the
session must exist for this user and be incomplete, and must have no
stored answers yet.  The score is computed from the client-supplied
`isCorrect` flags; all answer rows are stored verbatim. -/
def submitAnswersBatch (db : DB) (userId sessionId : ℕ)
    (answers : List BatchAnswer) (now : ℕ) :
    DB × Except String BatchSubmitResult :=
  match db.sessions.find? (fun s =>
      s.id == sessionId && s.userId == userId && s.completedAt == none) with
  | none => (db, .error "Quiz session not found or already completed")
  | some _ =>
    if 0 < (db.answers.filter (fun a => a.sessionId == sessionId)).length then
      (db, .error "Answers already submitted for this session")
    else
      let score := (answers.filter (fun a => a.isCorrect)).length
      let answers' := db.answers ++ answers.map (fun a =>
        (⟨sessionId, a.characterId, a.userAnswer, a.isCorrect,
          some a.responseTimeMs⟩ : QuizAnswerRow))
      let sessions' := db.sessions.map (fun s =>
        if s.id == sessionId then { s with score := score } else s)
      let stats' := answers.foldl (upsertStatsForBatch userId now) db.stats
      ({ db with answers := answers', sessions := sessions', stats := stats' },
       .ok ⟨score, answers.length⟩)

/-- Result payload of `completeQuiz` (`QuizResult` in the source). -/
structure QuizResultOut where
  sessionId : ℕ
  score : ℕ
  totalItems : ℕ
  percentage : ℚ
  timeSpentMs : ℕ
  moduleProgressUpdated : Bool
  newModuleProgress : ℚ
  isModuleCompleted : Bool
  unlockedNextModule : Bool
deriving DecidableEq, Repr

/-- The stored progress percentage for (user, module), 0 when absent
(`currentProgress?.percentage ?? 0` in `completeQuiz`). -/
def progressPercentage (db : DB) (userId moduleId : ℕ) : ℚ :=
  match db.progress.find? (fun p =>
      p.userId == userId && p.moduleId == moduleId) with
  | some p => p.percentage
  | none => 0

/-- Number of completed sessions of this user for this module
(the `prisma.quizSession.count` in `completeQuiz`). -/
def completedSessionCount (db : DB) (userId moduleId : ℕ) : ℕ :=
  (db.sessions.filter (fun s =>
    s.userId == userId && s.moduleId == moduleId && s.completedAt != none)).length

/-- `completeQuiz` from `complete-quiz.ts`.  Guards: the session must
exist for this user and not be completed yet.  On success it stamps
the completion time, folds the session percentage into the stored module
progress and reports the unlock / completion threshold crossings. -/
def completeQuiz (db : DB) (userId sessionId now : ℕ) :
    DB × Except String QuizResultOut :=
  match db.sessions.find? (fun s => s.id == sessionId && s.userId == userId) with
  | none => (db, .error "Quiz session not found")
  | some session =>
    match session.completedAt with
    | some _ => (db, .error "Quiz session already completed")
    | none =>
      let timeSpentMs := now - session.startedAt
      let percentage : ℚ := (session.score : ℚ) / (session.totalItems : ℚ) * 100
      let sessionCount := completedSessionCount db userId session.moduleId
      let oldProgress := progressPercentage db userId session.moduleId
      let newProgress := calculateNewProgress oldProgress percentage (sessionCount + 1)
      let wasAboveThreshold := decide (UNLOCK_THRESHOLD ≤ oldProgress)
      let isAboveThreshold := decide (UNLOCK_THRESHOLD ≤ newProgress)
      let unlockedNextModule := !wasAboveThreshold && isAboveThreshold
      let wasCompleted := decide (COMPLETION_THRESHOLD ≤ oldProgress)
      let isModuleCompleted := decide (COMPLETION_THRESHOLD ≤ newProgress)
      let sessions' := db.sessions.map (fun s =>
        if s.id == sessionId then { s with completedAt := some now } else s)
      let progress' :=
        match db.progress.find? (fun p =>
            p.userId == userId && p.moduleId == session.moduleId) with
        | some _ => db.progress.map (fun p =>
            if p.userId == userId && p.moduleId == session.moduleId then
              { p with percentage := newProgress }
            else p)
        | none => db.progress ++ [⟨userId, session.moduleId, newProgress⟩]
      ({ db with sessions := sessions', progress := progress' },
       .ok { sessionId := sessionId
             score := session.score
             totalItems := session.totalItems
             percentage := percentage
             timeSpentMs := timeSpentMs
             moduleProgressUpdated := decide (newProgress ≠ oldProgress)
             newModuleProgress := newProgress
             isModuleCompleted := isModuleCompleted && !wasCompleted
             unlockedNextModule := unlockedNextModule })

/-! ## Client answer queue (`src/features/quizzes/hooks/useAnswerQueue.ts`) -/

/-- Delivery status of a locally recorded answer. -/
inductive SyncStatus
  | pending
  | syncing
  | synced
  | failed
deriving DecidableEq, Repr

/-- A `PendingAnswer` held by the client queue. -/
structure PendingAnswer where
  id : ℕ
  sessionId : ℕ
  characterId : ℕ
  userAnswer : String
  responseTimeMs : ℕ
  isCorrect : Bool
  timestamp : ℕ
  retryCount : ℕ
  status : SyncStatus
deriving DecidableEq, Repr

/-- `MAX_RETRIES` in `useAnswerQueue.ts`. -/
def MAX_RETRIES : ℕ := 3

/-- `RETRY_DELAYS` in `useAnswerQueue.ts` (milliseconds). -/
def RETRY_DELAYS : List ℕ := [1000, 2000, 5000]

/-- The answers a `processQueue` pass attempts to deliver: status
`pending`, or `failed` with fewer than `MAX_RETRIES` recorded failures. -/
def processableAnswers (answers : List PendingAnswer) : List PendingAnswer :=
  answers.filter (fun a => a.status == .pending
    || (a.status == .failed && a.retryCount < MAX_RETRIES))

/-- The backoff delay scheduled after a failed attempt:
`RETRY_DELAYS[Math.min(answer.retryCount, RETRY_DELAYS.length - 1)]`. -/
def retryDelay (retryCount : ℕ) : ℕ :=
  RETRY_DELAYS.getD (min retryCount (RETRY_DELAYS.length - 1)) 0

/-- The `setAnswers` update marking one answer as `syncing`. -/
def markSyncing (answers : List PendingAnswer) (id : ℕ) : List PendingAnswer :=
  answers.map (fun a => if a.id == id then { a with status := .syncing } else a)

/-- The `setAnswers` update marking one answer as `synced`. -/
def markSynced (answers : List PendingAnswer) (id : ℕ) : List PendingAnswer :=
  answers.map (fun a => if a.id == id then { a with status := .synced } else a)

/-- The `setAnswers` update after a failed delivery attempt: status
`failed` and the retry count incremented. -/
def markFailedRetry (answers : List PendingAnswer) (id : ℕ) : List PendingAnswer :=
  answers.map (fun a =>
    if a.id == id then { a with status := .failed, retryCount := a.retryCount + 1 }
    else a)

/-- One poll of `checkSync` inside `waitForSync`: resolves
`some (no terminally failed item)` once nothing is pending or syncing,
`some false` on timeout, and keeps polling (`none`) otherwise. -/
def checkSyncResolve (answers : List PendingAnswer) (timedOut : Bool) : Option Bool :=
  let pending := answers.filter (fun a =>
    a.status == .pending || a.status == .syncing)
  let failed := answers.filter (fun a =>
    a.status == .failed && MAX_RETRIES ≤ a.retryCount)
  if pending.length == 0 then some (failed.length == 0)
  else if timedOut then some false
  else none

/-! ## Adaptive selection (`src/features/quizzes/lib/start-quiz.ts`)

`Math.random()` draws are modelled as explicit rational oracles: a
function argument supplies the value of each successive draw, so every
theorem quantifies over all possible randomness. -/

/-- User accuracy data looked up by `calculateCharacterWeights`
(the `statsMap` entries). -/
structure StatsEntry where
  totalAttempts : ℕ
  correctCount : ℕ
deriving DecidableEq, Repr

/-- `QuizConfig` from the types module. -/
structure QuizConfig where
  questionCount : ℕ
  optionsCount : ℕ
  weakCharacterWeight : ℚ
  minAttemptsForMastery : ℕ
  masteryThreshold : ℚ
deriving DecidableEq, Repr

/-- `DEFAULT_QUIZ_CONFIG` from the types module. -/
def DEFAULT_QUIZ_CONFIG : QuizConfig :=
  { questionCount := 10
    optionsCount := 4
    weakCharacterWeight := 3
    minAttemptsForMastery := 5
    masteryThreshold := 4 / 5 }

/-- A character with its selection weight (`WeightedCharacter`). -/
structure WeightedCharacter where
  character : Character
  weight : ℚ
  accuracy : ℚ
deriving DecidableEq, Repr

/-- The body of the map in `calculateCharacterWeights`: weight 2 for a
character without recorded attempts, otherwise
`(1 - accuracy) * weakCharacterWeight + 1`. -/
def weightForCharacter (statsFind : ℕ → Option StatsEntry) (config : QuizConfig)
    (character : Character) : WeightedCharacter :=
  match statsFind character.id with
  | none => ⟨character, 2, 0⟩
  | some stats =>
    if stats.totalAttempts = 0 then ⟨character, 2, 0⟩
    else
      let accuracy : ℚ := (stats.correctCount : ℚ) / (stats.totalAttempts : ℚ)
      ⟨character, (1 - accuracy) * config.weakCharacterWeight + 1, accuracy⟩

/-- `calculateCharacterWeights` from `start-quiz.ts`. -/
def calculateCharacterWeights (characters : List Character)
    (statsFind : ℕ → Option StatsEntry) (config : QuizConfig) :
    List WeightedCharacter :=
  characters.map (weightForCharacter statsFind config)

/-- The cumulative weight reduce at the top of `weightedRandomSelect`. -/
def totalWeight (items : List WeightedCharacter) : ℚ :=
  items.foldl (fun sum item => sum + item.weight) 0

/-- The for-loop of `weightedRandomSelect`: subtract each weight from the
running draw and stop at the first item driving it to 0 or below. -/
def weightedSelectLoop : ℚ → List WeightedCharacter → Option WeightedCharacter
  | _, [] => none
  | random, item :: rest =>
    if random - item.weight ≤ 0 then some item
    else weightedSelectLoop (random - item.weight) rest

/-- `weightedRandomSelect` from `start-quiz.ts`; `u` stands for the
`Math.random()` draw, so the scanned value is `u * totalWeight`.  When the
loop runs off the end, the source falls back to the last element
(`items[items.length - 1]`), which is `none` only for an empty input. -/
def weightedRandomSelect (items : List WeightedCharacter) (u : ℚ) :
    Option WeightedCharacter :=
  match weightedSelectLoop (u * totalWeight items) items with
  | some item => some item
  | none => items.getLast?

/-- The while-loop of `selectAdaptiveCharacters`: draw one weighted item,
remove it from the remaining pool (`indexOf` + `splice`, i.e. erase the
chosen occurrence), and repeat until `count` items are chosen or the pool
is exhausted.  `rand step` is the `Math.random()` draw of iteration `step`. -/
def selectAdaptiveGo (rand : ℕ → ℚ) : ℕ → ℕ → List WeightedCharacter → List Character
  | _, 0, _ => []
  | step, count + 1, available =>
    if available.isEmpty then []
    else
      match weightedRandomSelect available (rand step) with
      | none => []
      | some chosen =>
        chosen.character ::
          selectAdaptiveGo rand (step + 1) count (available.erase chosen)

/-- `selectAdaptiveCharacters` from `start-quiz.ts`. -/
def selectAdaptiveCharacters (rand : ℕ → ℚ) (weightedCharacters : List WeightedCharacter)
    (count : ℕ) : List Character :=
  selectAdaptiveGo rand 0 count weightedCharacters

/-- The JavaScript destructuring swap `[l[i], l[j]] = [l[j], l[i]]`,
guarded by both indices being in bounds (always the case for the draws
`Math.floor(Math.random() * (i + 1))` produced by the shuffle). -/
def listSwap {α : Type} (l : List α) (i j : ℕ) : List α :=
  match l.get? i, l.get? j with
  | some a, some b => (l.set i b).set j a
  | _, _ => l

/-- The Fisher-Yates loop of `shuffleArray`, from `i = length - 1` down to
`1`, swapping position `i` with `Math.floor(rand i * (i + 1))`. -/
def fisherYatesGo {α : Type} (rand : ℕ → ℚ) : ℕ → List α → List α
  | 0, l => l
  | i + 1, l =>
    fisherYatesGo rand i (listSwap l (i + 1) (Int.toNat ⌊rand (i + 1) * ((i : ℚ) + 2)⌋))

/-- `shuffleArray` from `start-quiz.ts`. -/
def shuffleArray {α : Type} (rand : ℕ → ℚ) (l : List α) : List α :=
  fisherYatesGo rand (l.length - 1) l

/-- `[...new Set(list)]`: deduplication keeping first occurrences. -/
def jsDedup : List String → List String
  | [] => []
  | r :: rest => r :: jsDedup (rest.filter (fun x => x != r))
termination_by l => l.length
decreasing_by
  simp only [List.length_cons]
  exact Nat.lt_succ_of_le (List.length_filter_le _ _)

/-- `generateWrongOptions` from `start-quiz.ts`: drop every reading equal
to the correct one, shuffle, and keep the first `count`. -/
def generateWrongOptions (rand : ℕ → ℚ) (correctReading : String)
    (allReadings : List String) (count : ℕ) : List String :=
  (shuffleArray rand (allReadings.filter (fun r => r != correctReading))).take count

/-- A multiple-choice question (`QuizQuestion` in the source). -/
structure QuizQuestion where
  character : Character
  options : List String
  correctAnswer : String
deriving DecidableEq, Repr

/-- The map of `buildQuestions`, with an explicit position index `k` so
each question draws from its own randomness streams. -/
def buildQuestionsGo (randWrong randOpts : ℕ → ℕ → ℚ) (allReadings : List String)
    (optionsCount : ℕ) : ℕ → List Character → List QuizQuestion
  | _, [] => []
  | k, character :: rest =>
    let wrongOptions := generateWrongOptions (randWrong k) character.reading
      allReadings (optionsCount - 1)
    let options := shuffleArray (randOpts k) (character.reading :: wrongOptions)
    ⟨character, options, character.reading⟩ ::
      buildQuestionsGo randWrong randOpts allReadings optionsCount (k + 1) rest

/-- `buildQuestions` from `start-quiz.ts`. -/
def buildQuestions (randWrong randOpts : ℕ → ℕ → ℚ)
    (selectedCharacters : List Character) (allReadings : List String)
    (optionsCount : ℕ) : List QuizQuestion :=
  buildQuestionsGo randWrong randOpts allReadings optionsCount 0 selectedCharacters

/-- The question-construction core of `startQuiz` in `start-quiz.ts`:
weight the module's characters, adaptively select
`min(questionCount, #characters)` of them, build the options from the
deduplicated readings, and shuffle the question order. -/
def startQuizQuestions (randSel : ℕ → ℚ) (randWrong randOpts : ℕ → ℕ → ℚ)
    (randShuffle : ℕ → ℚ) (statsFind : ℕ → Option StatsEntry)
    (config : QuizConfig) (characters : List Character) : List QuizQuestion :=
  let weightedCharacters := calculateCharacterWeights characters statsFind config
  let questionCount := min config.questionCount characters.length
  let selectedCharacters := selectAdaptiveCharacters randSel weightedCharacters questionCount
  let allReadings := jsDedup (characters.map (fun c => c.reading))
  let questions := buildQuestions randWrong randOpts selectedCharacters
    allReadings config.optionsCount
  shuffleArray randShuffle questions

/-! ## Helper lemmas -/

/-- The loop of `weightedRandomSelect` only ever returns a list element. -/
theorem weightedSelectLoop_mem : ∀ {r : ℚ} {l : List WeightedCharacter}
    {x : WeightedCharacter}, weightedSelectLoop r l = some x → x ∈ l
  | _, [], _, h => by simp [weightedSelectLoop] at h
  | r, item :: rest, x, h => by
    by_cases hc : r - item.weight ≤ 0
    · simp [weightedSelectLoop, hc] at h
      simp [h]
    · simp only [weightedSelectLoop, if_neg hc] at h
      exact List.mem_cons_of_mem _ (weightedSelectLoop_mem h)

/-- `weightedRandomSelect` is total on non-empty pools and selects a
member: the loop returns a member, and the fallback is the last element. -/
theorem weightedRandomSelect_mem_of_ne_nil {items : List WeightedCharacter}
    (u : ℚ) (h : items ≠ []) :
    ∃ x, weightedRandomSelect items u = some x ∧ x ∈ items := by
  unfold weightedRandomSelect
  cases hl : weightedSelectLoop (u * totalWeight items) items with
  | some item => exact ⟨item, rfl, weightedSelectLoop_mem hl⟩
  | none =>
    cases hg : items.getLast? with
    | none => exact absurd (List.getLast?_eq_none_iff.mp hg) h
    | some x => exact ⟨x, rfl, List.mem_of_mem_getLast? (by simp [hg])⟩

/-- Unfolding of `weightForCharacter` when stats with attempts exist. -/
theorem weightForCharacter_weight_of_stats (statsFind : ℕ → Option StatsEntry)
    (config : QuizConfig) (ch : Character) (s : StatsEntry)
    (hs : statsFind ch.id = some s) (h0 : s.totalAttempts ≠ 0) :
    (weightForCharacter statsFind config ch).weight
      = (1 - (s.correctCount : ℚ) / (s.totalAttempts : ℚ)) * config.weakCharacterWeight + 1 := by
  simp [weightForCharacter, hs, h0]

/-! ## C1: progress smoothing formula -/

/-- C1: `calculateNewProgress(previous, sessionPercentage, sessionCount)`
returns exactly `sessionPercentage` when `sessionCount ≤ 1`; otherwise it
returns `previous*0.6 + sessionPercentage*0.4` raised to at least
`max 0 (previous - 10)` and capped at 100.  In particular
`calculateNewProgress 50 100 2 = 70` and `calculateNewProgress 50 0 2 = 40`. -/
theorem c1_calculateNewProgress (previous sessionPercentage : ℚ) (sessionCount : ℕ) :
    (sessionCount ≤ 1 →
      calculateNewProgress previous sessionPercentage sessionCount = sessionPercentage)
    ∧ (2 ≤ sessionCount →
      calculateNewProgress previous sessionPercentage sessionCount
        = max (max 0 (previous - 10))
            (min 100 (previous * (3/5) + sessionPercentage * (2/5))))
    ∧ calculateNewProgress 50 100 2 = 70
    ∧ calculateNewProgress 50 0 2 = 40 := by
  refine ⟨fun h => by simp [calculateNewProgress, h], fun h => ?_, ?_, ?_⟩
  · have h1 : ¬ sessionCount ≤ 1 := by omega
    simp only [calculateNewProgress, if_neg h1]
    norm_num
  · norm_num [calculateNewProgress, max_def, min_def]
  · norm_num [calculateNewProgress, max_def, min_def]

/-- Witness for C1 at concrete inputs. -/
theorem c1_calculateNewProgress_witness :
    calculateNewProgress 7 33 1 = 33 ∧ calculateNewProgress 50 100 2 = 70 :=
  ⟨(c1_calculateNewProgress 7 33 1).1 (by norm_num),
   (c1_calculateNewProgress 50 100 2).2.2.1⟩

/-! ## C4: character weighting -/

/-- C4: in `calculateCharacterWeights`, a character without stats or with
zero recorded attempts gets weight exactly 2; otherwise the weight is
`(1 - correctCount/totalAttempts) * weakCharacterWeight + 1`, which for
the default weak-character weight 3 strictly decreases as accuracy
increases and is always at least 1. -/
theorem c4_characterWeights (characters : List Character)
    (statsFind : ℕ → Option StatsEntry) (config : QuizConfig) :
    calculateCharacterWeights characters statsFind config
        = characters.map (weightForCharacter statsFind config)
    ∧ (∀ ch : Character, statsFind ch.id = none →
        (weightForCharacter statsFind config ch).weight = 2)
    ∧ (∀ (ch : Character) (s : StatsEntry), statsFind ch.id = some s →
        s.totalAttempts = 0 → (weightForCharacter statsFind config ch).weight = 2)
    ∧ (∀ (ch : Character) (s : StatsEntry), statsFind ch.id = some s →
        s.totalAttempts ≠ 0 →
        (weightForCharacter statsFind config ch).weight
          = (1 - (s.correctCount : ℚ) / (s.totalAttempts : ℚ)) * config.weakCharacterWeight + 1)
    ∧ (config.weakCharacterWeight = 3 →
        ∀ (ch : Character) (s : StatsEntry), statsFind ch.id = some s →
          s.totalAttempts ≠ 0 → s.correctCount ≤ s.totalAttempts →
          1 ≤ (weightForCharacter statsFind config ch).weight)
    ∧ (config.weakCharacterWeight = 3 →
        ∀ (f₁ f₂ : ℕ → Option StatsEntry) (ch : Character) (s₁ s₂ : StatsEntry),
          f₁ ch.id = some s₁ → f₂ ch.id = some s₂ →
          s₁.totalAttempts ≠ 0 → s₂.totalAttempts ≠ 0 →
          (s₁.correctCount : ℚ) / (s₁.totalAttempts : ℚ)
            < (s₂.correctCount : ℚ) / (s₂.totalAttempts : ℚ) →
          (weightForCharacter f₂ config ch).weight
            < (weightForCharacter f₁ config ch).weight)
    ∧ DEFAULT_QUIZ_CONFIG.weakCharacterWeight = 3 := by
  refine ⟨rfl, fun ch h => by simp [weightForCharacter, h],
    fun ch s hs h0 => by simp [weightForCharacter, hs, h0],
    fun ch s hs h0 => weightForCharacter_weight_of_stats _ _ _ _ hs h0,
    fun hW ch s hs h0 hc => ?_, fun hW f₁ f₂ ch s₁ s₂ h₁ h₂ h0₁ h0₂ hacc => ?_, rfl⟩
  · rw [weightForCharacter_weight_of_stats _ _ _ _ hs h0, hW]
    have ht : (0 : ℚ) < (s.totalAttempts : ℚ) := by
      exact_mod_cast Nat.pos_of_ne_zero h0
    have hle : (s.correctCount : ℚ) / (s.totalAttempts : ℚ) ≤ 1 :=
      div_le_one_of_le₀ (by exact_mod_cast hc) (le_of_lt ht)
    linarith
  · rw [weightForCharacter_weight_of_stats _ _ _ _ h₁ h0₁,
      weightForCharacter_weight_of_stats _ _ _ _ h₂ h0₂, hW]
    linarith

/-- Witness for C4: weight of a character with 2 correct out of 4. -/
theorem c4_characterWeights_witness :
    (weightForCharacter (fun i => if i = 0 then some ⟨4, 2⟩ else none)
        DEFAULT_QUIZ_CONFIG ⟨0, "a", "a", "H"⟩).weight
      = (1 - (2 : ℚ) / (4 : ℚ)) * DEFAULT_QUIZ_CONFIG.weakCharacterWeight + 1 :=
  (c4_characterWeights [] (fun i => if i = 0 then some ⟨4, 2⟩ else none)
      DEFAULT_QUIZ_CONFIG).2.2.2.1 ⟨0, "a", "a", "H"⟩ ⟨4, 2⟩ rfl (by decide)

/-! ## C10: totality of weighted random selection -/

/-- C10: for every non-empty list of weighted items and every random
draw, `weightedRandomSelect` returns an element of the input list — the
fallback returns the last element when the draw overshoots the cumulative
total — so adaptive selection never yields an out-of-pool item. -/
theorem c10_weightedRandomSelect_total (items : List WeightedCharacter)
    (u : ℚ) (h : items ≠ []) :
    ∃ x, weightedRandomSelect items u = some x ∧ x ∈ items :=
  weightedRandomSelect_mem_of_ne_nil u h

/-- Witness for C10: a pool whose weights are all zero and a draw of 5
(far beyond the cumulative total) still selects a pool member. -/
theorem c10_weightedRandomSelect_total_witness :
    ∃ x, weightedRandomSelect [⟨⟨0, "a", "a", "H"⟩, 0, 0⟩] 5 = some x
      ∧ x ∈ [(⟨⟨0, "a", "a", "H"⟩, 0, 0⟩ : WeightedCharacter)] :=
  c10_weightedRandomSelect_total [⟨⟨0, "a", "a", "H"⟩, 0, 0⟩] 5 (by simp)

/-! ## C9: client answer queue -/

/-- C9 is corrected: `waitForSync` can resolve `true` while an answer is
still unsynced.  Concretely, a queue holding one answer in state `failed`
with `retryCount = 1` (a retryable failure, e.g. while its backoff timer
is pending) has nothing `pending` or `syncing` and nothing terminally
failed, so the `checkSync` poll resolves `some true` — yet that answer has
not reached `synced`. -/
theorem c9_waitForSync_counterexample :
    checkSyncResolve [⟨0, 0, 0, "x", 0, false, 0, 1, SyncStatus.failed⟩] false
        = some true
    ∧ (⟨0, 0, 0, "x", 0, false, 0, 1, SyncStatus.failed⟩ : PendingAnswer).status
        ≠ SyncStatus.synced := by
  exact ⟨by decide, by decide⟩

/-- C9 (amended): an answer that has failed `MAX_RETRIES = 3` delivery
attempts is terminally failed: `processQueue` never selects it again and
any delivery step on another answer leaves it untouched; a `checkSync`
poll of `waitForSync` resolves `false` whenever a terminally failed item
remains, and resolves `true` exactly when no answer is pending or syncing
and none is terminally failed (a retryable failed answer does not block a
`true` result); the retry delays are 1000 ms, 2000 ms and 5000 ms. -/
theorem c9_syncQueue (answers : List PendingAnswer) :
    (∀ a : PendingAnswer, a.status = SyncStatus.failed → MAX_RETRIES ≤ a.retryCount →
      a ∉ processableAnswers answers)
    ∧ (∀ timedOut : Bool,
        checkSyncResolve answers timedOut = some true ↔
          ∀ a ∈ answers, a.status ≠ SyncStatus.pending ∧ a.status ≠ SyncStatus.syncing
            ∧ ¬(a.status = SyncStatus.failed ∧ MAX_RETRIES ≤ a.retryCount))
    ∧ (∀ (timedOut : Bool) (b : Bool), checkSyncResolve answers timedOut = some b →
        (∃ a ∈ answers, a.status = SyncStatus.failed ∧ MAX_RETRIES ≤ a.retryCount) →
        b = false)
    ∧ ((∀ a ∈ answers, a.status = SyncStatus.synced) →
        checkSyncResolve answers false = some true)
    ∧ (∀ a b : PendingAnswer, (answers.map PendingAnswer.id).Nodup →
        a ∈ answers → a.status = SyncStatus.failed → MAX_RETRIES ≤ a.retryCount →
        b ∈ processableAnswers answers →
        a ∈ markSyncing answers b.id ∧ a ∈ markSynced answers b.id
          ∧ a ∈ markFailedRetry answers b.id)
    ∧ retryDelay 0 = 1000 ∧ retryDelay 1 = 2000 ∧ (∀ n, 2 ≤ n → retryDelay n = 5000) := by
  have hproc : ∀ a : PendingAnswer, a.status = SyncStatus.failed →
      MAX_RETRIES ≤ a.retryCount → a ∉ processableAnswers answers := by
    intro a hst hret hmem
    rw [processableAnswers, List.mem_filter] at hmem
    rcases hmem with ⟨-, hp⟩
    rw [hst] at hp
    simp [MAX_RETRIES] at hp hret
    omega
  have hiff : ∀ timedOut : Bool,
      checkSyncResolve answers timedOut = some true ↔
        ∀ a ∈ answers, a.status ≠ SyncStatus.pending ∧ a.status ≠ SyncStatus.syncing
          ∧ ¬(a.status = SyncStatus.failed ∧ MAX_RETRIES ≤ a.retryCount) := by
    intro timedOut
    unfold checkSyncResolve
    constructor
    · intro h
      by_cases hp : (answers.filter (fun a =>
          a.status == SyncStatus.pending || a.status == SyncStatus.syncing)).length = 0
      · simp only [hp, beq_self_eq_true, if_pos] at h
        have hf : (answers.filter (fun a =>
            a.status == SyncStatus.failed && MAX_RETRIES ≤ a.retryCount)).length = 0 := by
          by_contra hne
          simp [hne] at h
        rw [List.length_eq_zero, List.filter_eq_nil_iff] at hp hf
        intro a ha
        have h1 := hp a ha
        have h2 := hf a ha
        simp only [Bool.or_eq_true, beq_iff_eq, not_or] at h1
        simp only [Bool.and_eq_true, beq_iff_eq, decide_eq_true_eq, not_and] at h2
        exact ⟨h1.1, h1.2, fun hc => h2 hc.1 hc.2⟩
      · exfalso
        rcases Bool.eq_false_or_eq_true timedOut with ht | ht <;>
          simp [hp, ht] at h
    · intro h
      have hp : (answers.filter (fun a =>
          a.status == SyncStatus.pending || a.status == SyncStatus.syncing)) = [] := by
        rw [List.filter_eq_nil_iff]
        intro a ha
        have := h a ha
        simp only [Bool.or_eq_true, beq_iff_eq, not_or]
        exact ⟨this.1, this.2.1⟩
      have hf : (answers.filter (fun a =>
          a.status == SyncStatus.failed && MAX_RETRIES ≤ a.retryCount)) = [] := by
        rw [List.filter_eq_nil_iff]
        intro a ha
        have := (h a ha).2.2
        simp only [Bool.and_eq_true, beq_iff_eq, decide_eq_true_eq, not_and]
        exact fun h1 h2 => this ⟨h1, h2⟩
      simp [hp, hf]
  refine ⟨hproc, hiff, fun timedOut b hb hex => ?_, fun hall => ?_,
    fun a b hnd ha hst hret hb => ?_, rfl, rfl, fun n hn => ?_⟩
  · rcases Bool.eq_false_or_eq_true b with h | h
    · exfalso
      rw [h] at hb
      rcases hex with ⟨a, ha, hst, hret⟩
      exact ((hiff timedOut).mp hb a ha).2.2 ⟨hst, hret⟩
    · exact h
  · exact (hiff false).mpr (fun a ha => by
      have := hall a ha
      refine ⟨by simp [this], by simp [this], ?_⟩
      rw [this]
      rintro ⟨h, -⟩
      exact absurd h (by decide))
  · have hab : a ≠ b := by
      intro hEq
      exact hproc a hst hret (hEq ▸ hb)
    have hbmem : b ∈ answers := (List.mem_filter.mp hb).1
    have hid : a.id ≠ b.id := by
      intro hEq
      exact hab (List.inj_on_of_nodup_map hnd ha hbmem hEq)
    have hbeq : (a.id == b.id) = false := by
      simp [hid]
    refine ⟨?_, ?_, ?_⟩ <;>
      [rw [markSyncing]; rw [markSynced]; rw [markFailedRetry]] <;>
      exact List.mem_map.mpr ⟨a, ha, by simp [hbeq]⟩
  · have : min n (RETRY_DELAYS.length - 1) = 2 := by
      simp [RETRY_DELAYS]
      omega
    rw [retryDelay, this]
    decide

/-- Witness for C9 at a concrete queue: a fully synced queue resolves
`true`, and the third delay is 5000 ms. -/
theorem c9_syncQueue_witness :
    checkSyncResolve [⟨0, 0, 0, "y", 0, true, 0, 0, SyncStatus.synced⟩] false = some true
    ∧ retryDelay 7 = 5000 :=
  ⟨(c9_syncQueue [⟨0, 0, 0, "y", 0, true, 0, 0, SyncStatus.synced⟩]).2.2.2.1
      (by decide),
   (c9_syncQueue []).2.2.2.2.2.2.2 7 (by decide)⟩

/-! ## Helper lemmas for the store operations -/

/-- `find?` returns the matching element when it is the only match. -/
theorem find?_eq_some_of_unique {α : Type} {p : α → Bool} {a : α} :
    ∀ {l : List α}, a ∈ l → p a = true → (∀ b ∈ l, p b = true → b = a) →
      l.find? p = some a
  | [], ha, _, _ => absurd ha (List.not_mem_nil a)
  | x :: xs, ha, hpa, huniq => by
    by_cases hx : p x = true
    · rw [List.find?_cons_of_pos _ hx, huniq x (List.mem_cons_self x xs) hx]
    · rw [List.find?_cons_of_neg _ hx]
      have hax : a ∈ xs := by
        rcases List.mem_cons.mp ha with h | h
        · exact absurd (h ▸ hpa) hx
        · exact h
      exact find?_eq_some_of_unique hax hpa
        (fun b hb hpb => huniq b (List.mem_cons_of_mem _ hb) hpb)

/-! ## C7: a completed session accepts no further operation -/

/-- C7: once a session's completion timestamp is set, `submitAnswer`,
`submitAnswersBatch` and `completeQuiz` all fail with an error and return
the store unchanged (so the session, its answers, the character stats and
the user progress all stand); in particular completing twice fails. -/
theorem c7_completed_session_rejects (db : DB) (uid sid cid now now2 : ℕ)
    (ua : String) (rt : Option ℕ) (batch : List BatchAnswer)
    (s : QuizSessionRow) (t : ℕ)
    (hnd : (db.sessions.map QuizSessionRow.id).Nodup)
    (hs : s ∈ db.sessions) (hid : s.id = sid) (huser : s.userId = uid)
    (hdone : s.completedAt = some t) :
    submitAnswer db uid sid cid ua rt now
        = (db, .error "Quiz session not found or already completed")
    ∧ submitAnswersBatch db uid sid batch now
        = (db, .error "Quiz session not found or already completed")
    ∧ completeQuiz db uid sid now2
        = (db, .error "Quiz session already completed") := by
  have hfind : db.sessions.find? (fun x =>
      x.id == sid && x.userId == uid && x.completedAt == none) = none := by
    rw [List.find?_eq_none]
    intro x hx hpx
    simp only [Bool.and_eq_true, beq_iff_eq] at hpx
    have hxs : x = s := List.inj_on_of_nodup_map hnd hx hs (by rw [hpx.1.1, hid])
    rw [hxs, hdone] at hpx
    simpa using hpx.2
  have hfind2 : db.sessions.find? (fun x => x.id == sid && x.userId == uid)
      = some s :=
    find?_eq_some_of_unique hs (by simp [hid, huser])
      (fun b hb hpb => by
        simp only [Bool.and_eq_true, beq_iff_eq] at hpb
        exact List.inj_on_of_nodup_map hnd hb hs (by rw [hpb.1, hid]))
  refine ⟨?_, ?_, ?_⟩
  · rw [submitAnswer, hfind]
  · rw [submitAnswersBatch, hfind]
  · rw [completeQuiz, hfind2]
    simp only [hdone]

/-- Witness for C7 on a one-session store whose session is completed. -/
theorem c7_completed_session_rejects_witness :
    submitAnswer ⟨[], [⟨1, 7, 3, 10, 2, 0, some 9⟩], [], [], []⟩ 7 1 5 "a" none 0
        = (⟨[], [⟨1, 7, 3, 10, 2, 0, some 9⟩], [], [], []⟩,
           .error "Quiz session not found or already completed")
    ∧ submitAnswersBatch ⟨[], [⟨1, 7, 3, 10, 2, 0, some 9⟩], [], [], []⟩ 7 1 [] 0
        = (⟨[], [⟨1, 7, 3, 10, 2, 0, some 9⟩], [], [], []⟩,
           .error "Quiz session not found or already completed")
    ∧ completeQuiz ⟨[], [⟨1, 7, 3, 10, 2, 0, some 9⟩], [], [], []⟩ 7 1 4
        = (⟨[], [⟨1, 7, 3, 10, 2, 0, some 9⟩], [], [], []⟩,
           .error "Quiz session already completed") :=
  c7_completed_session_rejects ⟨[], [⟨1, 7, 3, 10, 2, 0, some 9⟩], [], [], []⟩
    7 1 5 0 4 "a" none [] ⟨1, 7, 3, 10, 2, 0, some 9⟩ 9
    (by decide) (by decide) rfl rfl rfl

/-! ## C8: duplicate answers are rejected -/

/-- C8: when a (session, character) pair already has a stored answer, a
second `submitAnswer` for the pair fails with the invalid-state error and
returns the store unchanged, so the first answer's correctness flag, the
session score and the character stats all stand. -/
theorem c8_duplicate_answer_rejected (db : DB) (uid sid cid now : ℕ)
    (ua : String) (rt : Option ℕ) (s : QuizSessionRow) (a : QuizAnswerRow)
    (hs : s ∈ db.sessions) (hid : s.id = sid) (huser : s.userId = uid)
    (hactive : s.completedAt = none)
    (ha : a ∈ db.answers) (has : a.sessionId = sid) (hac : a.characterId = cid) :
    submitAnswer db uid sid cid ua rt now
      = (db, .error "Character already answered in this session") := by
  have h1 : (db.sessions.find? (fun x =>
      x.id == sid && x.userId == uid && x.completedAt == none)).isSome :=
    List.find?_isSome.mpr ⟨s, hs, by simp [hid, huser, hactive]⟩
  have h2 : (db.answers.find? (fun x =>
      x.sessionId == sid && x.characterId == cid)).isSome :=
    List.find?_isSome.mpr ⟨a, ha, by simp [has, hac]⟩
  rcases Option.isSome_iff_exists.mp h1 with ⟨s', hs'⟩
  rcases Option.isSome_iff_exists.mp h2 with ⟨a', ha'⟩
  rw [submitAnswer, hs', ha']

/-- Witness for C8: a store holding one answer for the pair rejects a
second submission for the same pair. -/
theorem c8_duplicate_answer_rejected_witness :
    submitAnswer ⟨[⟨5, "p", "a", "H"⟩], [⟨1, 7, 3, 10, 1, 0, none⟩],
        [⟨1, 5, "a", true, some 100⟩], [], []⟩ 7 1 5 "e" none 0
      = (⟨[⟨5, "p", "a", "H"⟩], [⟨1, 7, 3, 10, 1, 0, none⟩],
          [⟨1, 5, "a", true, some 100⟩], [], []⟩,
         .error "Character already answered in this session") :=
  c8_duplicate_answer_rejected ⟨[⟨5, "p", "a", "H"⟩], [⟨1, 7, 3, 10, 1, 0, none⟩],
      [⟨1, 5, "a", true, some 100⟩], [], []⟩ 7 1 5 0 "e" none
    ⟨1, 7, 3, 10, 1, 0, none⟩ ⟨1, 5, "a", true, some 100⟩
    (by decide) rfl rfl rfl (by decide) rfl rfl

/-! ## C2: the score invariant under the batch path -/

/-- C2 is corrected: `submitAnswersBatch` performs no validation of the
batch length against the session's `totalItems`.  A store whose session
has `totalItems = 1` accepts a batch of two answers both flagged correct
and ends with `score = 2 > totalItems = 1`. -/
theorem c2_batch_score_counterexample :
    ∃ s ∈ (submitAnswersBatch ⟨[], [⟨1, 7, 3, 1, 0, 0, none⟩], [], [], []⟩ 7 1
        [⟨10, "a", true, 100⟩, ⟨11, "b", true, 100⟩] 0).1.sessions,
      s.totalItems < s.score := by decide

/-- C2 (amended): a successful `submitAnswersBatch` sets the session
score to the number of client-flagged-correct answers, which is at most
the number of submitted answers; the invariant `score ≤ totalItems`
therefore holds whenever the batch holds at most `totalItems` answers,
but the server does not validate the batch length, so a longer
client-supplied list can push the score above `totalItems`. -/
theorem c2_batch_score (db : DB) (uid sid now : ℕ) (batch : List BatchAnswer)
    (db' : DB) (r : BatchSubmitResult)
    (h : submitAnswersBatch db uid sid batch now = (db', Except.ok r)) :
    r.score = (batch.filter (fun a => a.isCorrect)).length
    ∧ r.score ≤ batch.length
    ∧ r.totalItems = batch.length
    ∧ (∀ s' ∈ db'.sessions, s'.id = sid → s'.score = r.score)
    ∧ (∀ s' ∈ db'.sessions, s'.id = sid → batch.length ≤ s'.totalItems →
        s'.score ≤ s'.totalItems) := by
  rcases hfind : db.sessions.find? (fun x =>
      x.id == sid && x.userId == uid && x.completedAt == none) with _ | s0
  · rw [submitAnswersBatch, hfind] at h
    simp at h
  · rw [submitAnswersBatch, hfind] at h
    by_cases hg : 0 < (db.answers.filter (fun a => a.sessionId == sid)).length
    · rw [if_pos hg] at h
      simp at h
    · rw [if_neg hg] at h
      simp only [Prod.mk.injEq, Except.ok.injEq] at h
      rcases h with ⟨hdb, hr⟩
      have hscore : r.score = (batch.filter (fun a => a.isCorrect)).length := by
        rw [← hr]
      have htotal : r.totalItems = batch.length := by rw [← hr]
      have hle : r.score ≤ batch.length := by
        rw [hscore]
        exact List.length_filter_le _ _
      refine ⟨hscore, hle, htotal, ?_, ?_⟩
      · intro s' hmem hsid
        rw [← hdb] at hmem
        simp only [List.mem_map] at hmem
        rcases hmem with ⟨s1, hs1, hmap⟩
        by_cases hcase : (s1.id == sid) = true
        · rw [if_pos hcase] at hmap
          rw [← hmap, hscore]
        · rw [if_neg hcase] at hmap
          rw [← hmap] at hsid
          simp [hsid] at hcase
      · intro s' hmem hsid hlen
        have hsc : s'.score = r.score := by
          rw [← hdb] at hmem
          simp only [List.mem_map] at hmem
          rcases hmem with ⟨s1, hs1, hmap⟩
          by_cases hcase : (s1.id == sid) = true
          · rw [if_pos hcase] at hmap
            rw [← hmap, hscore]
          · rw [if_neg hcase] at hmap
            rw [← hmap] at hsid
            simp [hsid] at hcase
        rw [hsc]
        exact le_trans hle hlen

/-- Witness for C2 (amended) on a concrete two-answer batch. -/
theorem c2_batch_score_witness :
    (⟨1, 2⟩ : BatchSubmitResult).score
      = (([⟨10, "a", true, 100⟩, ⟨11, "b", false, 50⟩] : List BatchAnswer).filter
          (fun a => a.isCorrect)).length :=
  (c2_batch_score ⟨[], [⟨1, 7, 3, 2, 0, 0, none⟩], [], [], []⟩ 7 1 0
    [⟨10, "a", true, 100⟩, ⟨11, "b", false, 50⟩]
    ⟨[], [⟨1, 7, 3, 2, 1, 0, none⟩],
     [⟨1, 10, "a", true, some 100⟩, ⟨1, 11, "b", false, some 50⟩],
     [⟨7, 10, 1, 1, 1, 0⟩, ⟨7, 11, 1, 0, 0, 0⟩], []⟩
    ⟨1, 2⟩ rfl).1

/-! ## C3: server-side recomputation of correctness -/

/-- C3 is corrected: the batch path does not recompute correctness.  On a
store whose only character has reading "a", a batch answer submitting the
text "x" with a client flag of `true` is stored with `isCorrect = true`,
although the server's own comparison rule evaluates to `false`. -/
theorem c3_batch_trusts_client_counterexample :
    ∃ c ∈ (⟨[⟨5, "p", "a", "HIRAGANA"⟩], [⟨1, 7, 3, 1, 0, 0, none⟩], [], [], []⟩
        : DB).characters,
      ∃ a ∈ (submitAnswersBatch
          ⟨[⟨5, "p", "a", "HIRAGANA"⟩], [⟨1, 7, 3, 1, 0, 0, none⟩], [], [], []⟩
          7 1 [⟨5, "x", true, 100⟩] 0).1.answers,
        a.characterId = c.id ∧ a.isCorrect ≠ serverIsCorrect a.userAnswer c.reading := by
  decide

/-- C3 (amended): on the single-answer path the server recomputes
correctness from the stored reading with the same case-insensitive rule
the client uses (`serverIsCorrect = clientIsCorrect`), and stores that
recomputed flag; on the batch path, however, the server persists the
client-supplied `isCorrect` flags verbatim, without recomputation. -/
theorem c3_correctness_rules :
    serverIsCorrect = clientIsCorrect
    ∧ (∀ (db : DB) (uid sid cid now : ℕ) (ua : String) (rt : Option ℕ)
        (db' : DB) (r : AnswerResult) (c : Character),
        submitAnswer db uid sid cid ua rt now = (db', Except.ok r) →
        db.characters.find? (fun ch => ch.id == cid) = some c →
        db'.answers = db.answers ++ [⟨sid, cid, ua, serverIsCorrect ua c.reading, rt⟩]
          ∧ r.isCorrect = serverIsCorrect ua c.reading)
    ∧ (∀ (db : DB) (uid sid now : ℕ) (batch : List BatchAnswer)
        (db' : DB) (r : BatchSubmitResult),
        submitAnswersBatch db uid sid batch now = (db', Except.ok r) →
        db'.answers = db.answers ++ batch.map (fun a =>
          (⟨sid, a.characterId, a.userAnswer, a.isCorrect,
            some a.responseTimeMs⟩ : QuizAnswerRow))) := by
  refine ⟨rfl, ?_, ?_⟩
  · intro db uid sid cid now ua rt db' r c h hc
    rcases hf1 : db.sessions.find? (fun x =>
        x.id == sid && x.userId == uid && x.completedAt == none) with _ | s0
    · rw [submitAnswer, hf1] at h
      simp at h
    · rcases hf2 : db.answers.find? (fun x =>
          x.sessionId == sid && x.characterId == cid) with _ | a0
      · rw [submitAnswer, hf1, hf2, hc] at h
        rcases hf3 : db.stats.find? (fun x =>
            x.userId == uid && x.characterId == cid) with _ | st0
        · rw [hf3] at h
          simp only [Prod.mk.injEq, Except.ok.injEq] at h
          rcases h with ⟨hdb, hr⟩
          exact ⟨by rw [← hdb], by rw [← hr]⟩
        · rw [hf3] at h
          simp only [Prod.mk.injEq, Except.ok.injEq] at h
          rcases h with ⟨hdb, hr⟩
          exact ⟨by rw [← hdb], by rw [← hr]⟩
      · rw [submitAnswer, hf1, hf2] at h
        simp at h
  · intro db uid sid now batch db' r h
    rcases hf1 : db.sessions.find? (fun x =>
        x.id == sid && x.userId == uid && x.completedAt == none) with _ | s0
    · rw [submitAnswersBatch, hf1] at h
      simp at h
    · rw [submitAnswersBatch, hf1] at h
      by_cases hg : 0 < (db.answers.filter (fun a => a.sessionId == sid)).length
      · rw [if_pos hg] at h
        simp at h
      · rw [if_neg hg] at h
        simp only [Prod.mk.injEq, Except.ok.injEq] at h
        rw [← h.1]

/-- Witness for C3 (amended): the single path stores the recomputed flag
for a case-differing submission. -/
theorem c3_correctness_rules_witness :
    (submitAnswer ⟨[⟨5, "p", "a", "H"⟩], [⟨1, 7, 3, 10, 0, 0, none⟩], [], [], []⟩
        7 1 5 "A" none 0).1.answers
      = [] ++ [⟨1, 5, "A", serverIsCorrect "A" "a", none⟩] := by
  have h := c3_correctness_rules.2.1
    ⟨[⟨5, "p", "a", "H"⟩], [⟨1, 7, 3, 10, 0, 0, none⟩], [], [], []⟩ 7 1 5 0 "A" none
    ⟨[⟨5, "p", "a", "H"⟩], [⟨1, 7, 3, 10, 1, 0, none⟩],
     [⟨1, 5, "A", true, none⟩], [⟨7, 5, 1, 1, 1, 0⟩], []⟩
    ⟨true, "a", 1, 1⟩ ⟨5, "p", "a", "H"⟩ rfl rfl
  calc (submitAnswer ⟨[⟨5, "p", "a", "H"⟩], [⟨1, 7, 3, 10, 0, 0, none⟩], [], [], []⟩
        7 1 5 "A" none 0).1.answers
      = [⟨1, 5, "A", true, none⟩] := by decide
    _ = [] ++ [⟨1, 5, "A", serverIsCorrect "A" "a", none⟩] := h.1.symm ▸ by decide

/-! ## C6: unlock and completion flags -/

/-- C6: a successful `completeQuiz` reports `unlockedNextModule = true`
exactly when the stored progress before the update was below 80 and the
updated progress is at or above 80, and `isModuleCompleted = true`
exactly when the prior progress was below 100 and the updated progress is
at or above 100; both flags are false when the threshold was already met. -/
theorem c6_completeQuiz_flags (db : DB) (uid sid now : ℕ) (db' : DB)
    (res : QuizResultOut) (s : QuizSessionRow)
    (hfind : db.sessions.find? (fun x => x.id == sid && x.userId == uid) = some s)
    (h : completeQuiz db uid sid now = (db', Except.ok res)) :
    (res.unlockedNextModule = true ↔
      progressPercentage db uid s.moduleId < UNLOCK_THRESHOLD
        ∧ UNLOCK_THRESHOLD ≤ res.newModuleProgress)
    ∧ (res.isModuleCompleted = true ↔
      progressPercentage db uid s.moduleId < COMPLETION_THRESHOLD
        ∧ COMPLETION_THRESHOLD ≤ res.newModuleProgress) := by
  rw [completeQuiz, hfind] at h
  rcases hdone : s.completedAt with _ | t
  · simp only [hdone, Prod.mk.injEq, Except.ok.injEq] at h
    rcases h with ⟨-, hr⟩
    rw [← hr]
    refine ⟨?_, ?_⟩ <;>
      (simp only [Bool.and_eq_true, Bool.not_eq_true', decide_eq_false_iff_not,
        decide_eq_true_eq, not_le]
       try tauto)
  · simp [hdone] at h

/-- Witness for C6: a 9/10 session on a module with no prior progress
newly crosses the unlock threshold but not the completion threshold. -/
theorem c6_completeQuiz_flags_witness :
    ((⟨1, 9, 10, 90, 5, true, 90, false, true⟩ : QuizResultOut).unlockedNextModule = true ↔
      progressPercentage ⟨[], [⟨1, 7, 3, 10, 9, 0, none⟩], [], [], []⟩ 7 3 < UNLOCK_THRESHOLD
        ∧ UNLOCK_THRESHOLD ≤ (⟨1, 9, 10, 90, 5, true, 90, false, true⟩ : QuizResultOut).newModuleProgress)
    ∧ ((⟨1, 9, 10, 90, 5, true, 90, false, true⟩ : QuizResultOut).isModuleCompleted = true ↔
      progressPercentage ⟨[], [⟨1, 7, 3, 10, 9, 0, none⟩], [], [], []⟩ 7 3 < COMPLETION_THRESHOLD
        ∧ COMPLETION_THRESHOLD ≤ (⟨1, 9, 10, 90, 5, true, 90, false, true⟩ : QuizResultOut).newModuleProgress) :=
  c6_completeQuiz_flags ⟨[], [⟨1, 7, 3, 10, 9, 0, none⟩], [], [], []⟩ 7 1 5
    ⟨[], [⟨1, 7, 3, 10, 9, 0, some 5⟩], [], [], [⟨7, 3, 90⟩]⟩
    ⟨1, 9, 10, 90, 5, true, 90, false, true⟩ ⟨1, 7, 3, 10, 9, 0, none⟩
    (by decide)
    (by norm_num [completeQuiz, progressPercentage, completedSessionCount,
      calculateNewProgress, UNLOCK_THRESHOLD, COMPLETION_THRESHOLD,
      List.find?, List.filter, max_def, min_def])

/-! ## Permutation lemmas for the shuffle -/

/-- Writing `x` at position `k` and moving the displaced value `b` to the
front permutes the original list with `x` put in front. -/
theorem cons_set_perm {α : Type} (x : α) :
    ∀ {t : List α} {k : ℕ} {b : α}, t.get? k = some b →
      (b :: t.set k x).Perm (x :: t)
  | [], k, b, h => by simp at h
  | y :: t, 0, b, h => by
    simp only [List.get?_cons_zero, Option.some.injEq] at h
    rw [← h]
    simpa using List.Perm.swap x y t
  | y :: t, k + 1, b, h => by
    simp only [List.get?_cons_succ] at h
    have h1 : b :: (y :: t).set (k + 1) x = b :: y :: t.set k x := by simp
    rw [h1]
    exact (List.Perm.swap y b (t.set k x)).trans
      (((cons_set_perm x h).cons y).trans (List.Perm.swap x y t))

/-- The destructuring swap permutes the list, whatever the indices. -/
theorem listSwap_perm {α : Type} : ∀ (l : List α) (i j : ℕ), (listSwap l i j).Perm l
  | [], i, j => by
    cases i <;> cases j <;> simp [listSwap]
  | x :: t, 0, 0 => by
    simp [listSwap]
  | x :: t, 0, j + 1 => by
    rw [listSwap]
    simp only [List.get?_cons_zero, List.get?_cons_succ]
    cases ht : t.get? j with
    | none => exact List.Perm.refl _
    | some b =>
      simpa using cons_set_perm x ht
  | x :: t, i + 1, 0 => by
    rw [listSwap]
    simp only [List.get?_cons_zero, List.get?_cons_succ]
    cases ht : t.get? i with
    | none => exact List.Perm.refl _
    | some a =>
      simpa using cons_set_perm x ht
  | x :: t, i + 1, j + 1 => by
    rw [listSwap]
    simp only [List.get?_cons_succ]
    cases hti : t.get? i with
    | none => exact List.Perm.refl _
    | some a =>
      cases htj : t.get? j with
      | none => exact List.Perm.refl _
      | some b =>
        have hrec := listSwap_perm t i j
        rw [listSwap, hti, htj] at hrec
        simpa using hrec.cons x

/-- Every pass of the Fisher-Yates loop permutes the list. -/
theorem fisherYatesGo_perm {α : Type} (rand : ℕ → ℚ) :
    ∀ (n : ℕ) (l : List α), (fisherYatesGo rand n l).Perm l
  | 0, l => List.Perm.refl l
  | n + 1, l =>
    (fisherYatesGo_perm rand n _).trans
      (listSwap_perm l (n + 1) (Int.toNat ⌊rand (n + 1) * ((n : ℚ) + 2)⌋))

/-- `shuffleArray` returns a permutation of its input. -/
theorem shuffleArray_perm {α : Type} (rand : ℕ → ℚ) (l : List α) :
    (shuffleArray rand l).Perm l :=
  fisherYatesGo_perm rand (l.length - 1) l

/-! ## Deduplication lemmas -/

/-- Membership is preserved by `jsDedup`. -/
theorem mem_jsDedup (y : String) : ∀ (l : List String), y ∈ jsDedup l ↔ y ∈ l
  | [] => by rw [jsDedup]
  | r :: rest => by
    rw [jsDedup]
    simp only [List.mem_cons, mem_jsDedup y (rest.filter (fun x => x != r)),
      List.mem_filter, bne_iff_ne, ne_eq, decide_eq_true_eq]
    constructor
    · rintro (h | ⟨h, -⟩)
      · exact Or.inl h
      · exact Or.inr h
    · rintro (h | h)
      · exact Or.inl h
      · by_cases hyr : y = r
        · exact Or.inl hyr
        · exact Or.inr ⟨h, hyr⟩
termination_by l => l.length
decreasing_by
  simp only [List.length_cons]
  exact Nat.lt_succ_of_le (List.length_filter_le _ _)

/-- `jsDedup` returns a list without duplicates. -/
theorem nodup_jsDedup : ∀ (l : List String), (jsDedup l).Nodup
  | [] => by rw [jsDedup]; exact List.nodup_nil
  | r :: rest => by
    rw [jsDedup, List.nodup_cons]
    refine ⟨fun hmem => ?_, nodup_jsDedup _⟩
    rw [mem_jsDedup] at hmem
    rcases List.mem_filter.mp hmem with ⟨-, hne⟩
    simp at hne
termination_by l => l.length
decreasing_by
  simp only [List.length_cons]
  exact Nat.lt_succ_of_le (List.length_filter_le _ _)

/-! ## Adaptive-selection lemmas -/

/-- The weighting never changes the underlying character. -/
theorem weightForCharacter_character (statsFind : ℕ → Option StatsEntry)
    (config : QuizConfig) (ch : Character) :
    (weightForCharacter statsFind config ch).character = ch := by
  unfold weightForCharacter
  cases statsFind ch.id with
  | none => rfl
  | some s =>
    by_cases h : s.totalAttempts = 0 <;> simp [h]

/-- The weighted list carries exactly the input characters, in order. -/
theorem calculateCharacterWeights_map_character (characters : List Character)
    (statsFind : ℕ → Option StatsEntry) (config : QuizConfig) :
    (calculateCharacterWeights characters statsFind config).map
        WeightedCharacter.character = characters := by
  rw [calculateCharacterWeights, List.map_map]
  have h : (WeightedCharacter.character ∘ weightForCharacter statsFind config) = id :=
    funext (fun ch => weightForCharacter_character statsFind config ch)
  rw [h, List.map_id]

/-- The selection loop chooses `min count poolSize` characters. -/
theorem selectAdaptiveGo_length (rand : ℕ → ℚ) :
    ∀ (count step : ℕ) (available : List WeightedCharacter),
      (selectAdaptiveGo rand step count available).length = min count available.length
  | 0, step, available => by
    simp [selectAdaptiveGo]
  | count + 1, step, available => by
    rw [selectAdaptiveGo]
    by_cases hemp : available.isEmpty = true
    · rw [if_pos hemp]
      rw [List.isEmpty_iff] at hemp
      simp [hemp]
    · rw [if_neg hemp]
      have hne : available ≠ [] := by
        intro h
        rw [h] at hemp
        exact hemp rfl
      rcases weightedRandomSelect_mem_of_ne_nil (rand step) hne with ⟨x, hx, hxmem⟩
      rw [hx]
      simp only [List.length_cons,
        selectAdaptiveGo_length rand count (step + 1) (available.erase x),
        List.length_erase_of_mem hxmem]
      have hpos : 0 < available.length := List.length_pos.mpr hne
      omega

/-- Every selected character comes from the pool. -/
theorem selectAdaptiveGo_subset (rand : ℕ → ℚ) :
    ∀ (count step : ℕ) (available : List WeightedCharacter) (c : Character),
      c ∈ selectAdaptiveGo rand step count available →
      c ∈ available.map WeightedCharacter.character
  | 0, step, available, c => by
    simp [selectAdaptiveGo]
  | count + 1, step, available, c => by
    rw [selectAdaptiveGo]
    by_cases hemp : available.isEmpty = true
    · rw [if_pos hemp]
      simp
    · rw [if_neg hemp]
      have hne : available ≠ [] := by
        intro h
        rw [h] at hemp
        exact hemp rfl
      rcases weightedRandomSelect_mem_of_ne_nil (rand step) hne with ⟨x, hx, hxmem⟩
      rw [hx]
      intro hmem
      rcases List.mem_cons.mp hmem with h | h
      · exact h ▸ List.mem_map_of_mem _ hxmem
      · exact List.map_subset _ (List.erase_sublist x available).subset
          (selectAdaptiveGo_subset rand count (step + 1) (available.erase x) c h)

/-- Erasing a member removes its image from the mapped list when the
mapped list has no duplicates. -/
theorem map_erase_of_nodup_map {α β : Type} [DecidableEq α] {f : α → β} :
    ∀ {l : List α} {a : α}, (l.map f).Nodup → a ∈ l →
      f a ∉ (l.erase a).map f
  | [], a, _, ha => absurd ha (List.not_mem_nil a)
  | x :: xs, a, hnd, ha => by
    simp only [List.map_cons, List.nodup_cons] at hnd
    by_cases hxa : x = a
    · subst hxa
      rw [List.erase_cons_head]
      exact hnd.1
    · have hax : a ∈ xs := by
        rcases List.mem_cons.mp ha with h | h
        · exact absurd h.symm hxa
        · exact h
      rw [List.erase_cons_tail (by simpa using fun h => hxa h)]
      simp only [List.map_cons, List.mem_cons, not_or]
      refine ⟨?_, map_erase_of_nodup_map hnd.2 hax⟩
      intro hEq
      exact hnd.1 (hEq ▸ List.mem_map_of_mem f hax)

/-- When the pool's characters are pairwise distinct, so is the
selection. -/
theorem selectAdaptiveGo_nodup (rand : ℕ → ℚ) :
    ∀ (count step : ℕ) (available : List WeightedCharacter),
      (available.map WeightedCharacter.character).Nodup →
      (selectAdaptiveGo rand step count available).Nodup
  | 0, step, available, _ => by
    simp [selectAdaptiveGo]
  | count + 1, step, available, hnd => by
    rw [selectAdaptiveGo]
    by_cases hemp : available.isEmpty = true
    · rw [if_pos hemp]
      exact List.nodup_nil
    · rw [if_neg hemp]
      have hne : available ≠ [] := by
        intro h
        rw [h] at hemp
        exact hemp rfl
      rcases weightedRandomSelect_mem_of_ne_nil (rand step) hne with ⟨x, hx, hxmem⟩
      rw [hx, List.nodup_cons]
      have herase : ((available.erase x).map WeightedCharacter.character).Nodup :=
        ((List.erase_sublist x available).map _).nodup hnd
      refine ⟨fun hmem => ?_, selectAdaptiveGo_nodup rand count (step + 1) _ herase⟩
      exact map_erase_of_nodup_map hnd hxmem
        (selectAdaptiveGo_subset rand count (step + 1) (available.erase x)
          x.character hmem)

/-! ## Question-building lemmas -/

/-- `buildQuestions` turns each selected character into one question for
that character, preserving the order. -/
theorem buildQuestionsGo_map_character (randWrong randOpts : ℕ → ℕ → ℚ)
    (allReadings : List String) (optionsCount : ℕ) :
    ∀ (k : ℕ) (sel : List Character),
      (buildQuestionsGo randWrong randOpts allReadings optionsCount k sel).map
          QuizQuestion.character = sel
  | k, [] => rfl
  | k, c :: rest => by
    rw [buildQuestionsGo]
    simp only [List.map_cons]
    rw [buildQuestionsGo_map_character randWrong randOpts allReadings optionsCount
      (k + 1) rest]

/-- Every question produced by `buildQuestions` is built from a selected
character: its correct answer is that character's reading and its options
are the shuffled correct reading plus generated wrong options. -/
theorem buildQuestionsGo_mem (randWrong randOpts : ℕ → ℕ → ℚ)
    (allReadings : List String) (optionsCount : ℕ) :
    ∀ (k : ℕ) (sel : List Character) (q : QuizQuestion),
      q ∈ buildQuestionsGo randWrong randOpts allReadings optionsCount k sel →
      ∃ k', q.character ∈ sel ∧ q.correctAnswer = q.character.reading
        ∧ q.options = shuffleArray (randOpts k')
            (q.character.reading ::
              generateWrongOptions (randWrong k') q.character.reading
                allReadings (optionsCount - 1))
  | k, [], q => by simp [buildQuestionsGo]
  | k, c :: rest, q => by
    rw [buildQuestionsGo]
    intro hmem
    rcases List.mem_cons.mp hmem with h | h
    · refine ⟨k, ?_, ?_, ?_⟩ <;> (rw [h]; try simp)
    · rcases buildQuestionsGo_mem randWrong randOpts allReadings optionsCount
        (k + 1) rest q h with ⟨k', h1, h2, h3⟩
      exact ⟨k', List.mem_cons_of_mem _ h1, h2, h3⟩

/-- Facts about one question's option list: the correct reading appears
exactly once, and the wrong options are distinct readings drawn from the
(areadings) pool, never equal to the correct one. -/
theorem question_options_spec (randWrong randOpts : ℕ → ℚ) (ch : Character)
    (allReadings : List String) (hnd : allReadings.Nodup) (optionsCount : ℕ) :
    (shuffleArray randOpts (ch.reading ::
        generateWrongOptions randWrong ch.reading allReadings (optionsCount - 1))).count
        ch.reading = 1
    ∧ (shuffleArray randOpts (ch.reading ::
        generateWrongOptions randWrong ch.reading allReadings (optionsCount - 1))).Perm
        (ch.reading ::
          generateWrongOptions randWrong ch.reading allReadings (optionsCount - 1))
    ∧ (generateWrongOptions randWrong ch.reading allReadings (optionsCount - 1)).Nodup
    ∧ (∀ o ∈ generateWrongOptions randWrong ch.reading allReadings (optionsCount - 1),
        o ∈ allReadings ∧ o ≠ ch.reading)
    ∧ (generateWrongOptions randWrong ch.reading allReadings (optionsCount - 1)).length
        = min (optionsCount - 1)
            ((allReadings.filter (fun r => r != ch.reading)).length) := by
  have hshuf : (shuffleArray randWrong
      (allReadings.filter (fun r => r != ch.reading))).Perm
      (allReadings.filter (fun r => r != ch.reading)) := shuffleArray_perm _ _
  have hmemwrong : ∀ o ∈ generateWrongOptions randWrong ch.reading allReadings
      (optionsCount - 1), o ∈ allReadings ∧ o ≠ ch.reading := by
    intro o ho
    have h1 : o ∈ shuffleArray randWrong
        (allReadings.filter (fun r => r != ch.reading)) :=
      List.take_subset _ _ ho
    have h2 : o ∈ allReadings.filter (fun r => r != ch.reading) := hshuf.subset h1
    rcases List.mem_filter.mp h2 with ⟨hm, hne⟩
    exact ⟨hm, by simpa using hne⟩
  have hwrongnodup : (generateWrongOptions randWrong ch.reading allReadings
      (optionsCount - 1)).Nodup := by
    have hfil : (allReadings.filter (fun r => r != ch.reading)).Nodup :=
      hnd.filter _
    have hs : (shuffleArray randWrong
        (allReadings.filter (fun r => r != ch.reading))).Nodup :=
      (hshuf.nodup_iff).mpr hfil
    exact (List.take_sublist _ _).nodup hs
  have hperm : (shuffleArray randOpts (ch.reading ::
      generateWrongOptions randWrong ch.reading allReadings (optionsCount - 1))).Perm
      (ch.reading ::
        generateWrongOptions randWrong ch.reading allReadings (optionsCount - 1)) :=
    shuffleArray_perm _ _
  refine ⟨?_, hperm, hwrongnodup, hmemwrong, ?_⟩
  · rw [hperm.count_eq, List.count_cons_self]
    have : (generateWrongOptions randWrong ch.reading allReadings
        (optionsCount - 1)).count ch.reading = 0 :=
      List.count_eq_zero.mpr (fun hmem => (hmemwrong _ hmem).2 rfl)
    omega
  · rw [generateWrongOptions, List.length_take, hshuf.length_eq]

/-! ## C5: quiz generation -/

/-- C5: for a module whose characters are pairwise distinct,
`startQuiz` produces exactly `min questionCount k` questions over pairwise
distinct characters of the module (all `k` of them when the configured
count is at least `k`), and each question's option list contains the
question's correct reading exactly once, the remaining options being at
most `optionsCount - 1` pairwise distinct other readings drawn from the
deduplicated readings of the module — exactly
`min (optionsCount - 1) (#other distinct readings)` of them, so fewer
when fewer distinct readings exist. -/
theorem c5_startQuizQuestions (randSel : ℕ → ℚ) (randWrong randOpts : ℕ → ℕ → ℚ)
    (randShuffle : ℕ → ℚ) (statsFind : ℕ → Option StatsEntry)
    (config : QuizConfig) (characters : List Character)
    (hnodup : characters.Nodup) :
    (startQuizQuestions randSel randWrong randOpts randShuffle statsFind config
        characters).length = min config.questionCount characters.length
    ∧ ((startQuizQuestions randSel randWrong randOpts randShuffle statsFind config
        characters).map QuizQuestion.character).Nodup
    ∧ (∀ q ∈ startQuizQuestions randSel randWrong randOpts randShuffle statsFind
        config characters, q.character ∈ characters)
    ∧ (characters.length ≤ config.questionCount →
        ((startQuizQuestions randSel randWrong randOpts randShuffle statsFind config
          characters).map QuizQuestion.character).Perm characters)
    ∧ (∀ q ∈ startQuizQuestions randSel randWrong randOpts randShuffle statsFind
        config characters,
        q.correctAnswer = q.character.reading
        ∧ q.options.count q.correctAnswer = 1
        ∧ ∃ wrong : List String,
            q.options.Perm (q.correctAnswer :: wrong)
            ∧ wrong.Nodup
            ∧ (∀ o ∈ wrong, o ∈ characters.map Character.reading ∧ o ≠ q.correctAnswer)
            ∧ wrong.length = min (config.optionsCount - 1)
                (((jsDedup (characters.map Character.reading)).filter
                  (fun r => r != q.character.reading)).length)) := by
  have hweight : (calculateCharacterWeights characters statsFind config).map
      WeightedCharacter.character = characters :=
    calculateCharacterWeights_map_character characters statsFind config
  have hwlen : (calculateCharacterWeights characters statsFind config).length
      = characters.length := by
    rw [calculateCharacterWeights, List.length_map]
  have hsel_len : (selectAdaptiveCharacters randSel
      (calculateCharacterWeights characters statsFind config)
      (min config.questionCount characters.length)).length
      = min config.questionCount characters.length := by
    rw [selectAdaptiveCharacters, selectAdaptiveGo_length, hwlen]
    omega
  have hsel_sub : ∀ c ∈ selectAdaptiveCharacters randSel
      (calculateCharacterWeights characters statsFind config)
      (min config.questionCount characters.length), c ∈ characters := by
    intro c hc
    have := selectAdaptiveGo_subset randSel _ 0 _ c hc
    rwa [hweight] at this
  have hsel_nodup : (selectAdaptiveCharacters randSel
      (calculateCharacterWeights characters statsFind config)
      (min config.questionCount characters.length)).Nodup :=
    selectAdaptiveGo_nodup randSel _ 0 _ (by rw [hweight]; exact hnodup)
  have hq_map : (buildQuestions randWrong randOpts
      (selectAdaptiveCharacters randSel
        (calculateCharacterWeights characters statsFind config)
        (min config.questionCount characters.length))
      (jsDedup (characters.map (fun c => c.reading))) config.optionsCount).map
        QuizQuestion.character
      = selectAdaptiveCharacters randSel
          (calculateCharacterWeights characters statsFind config)
          (min config.questionCount characters.length) :=
    buildQuestionsGo_map_character _ _ _ _ 0 _
  have hfinal : (startQuizQuestions randSel randWrong randOpts randShuffle statsFind
      config characters).Perm
      (buildQuestions randWrong randOpts
        (selectAdaptiveCharacters randSel
          (calculateCharacterWeights characters statsFind config)
          (min config.questionCount characters.length))
        (jsDedup (characters.map (fun c => c.reading))) config.optionsCount) := by
    rw [startQuizQuestions]
    exact shuffleArray_perm _ _
  have hfinal_map : ((startQuizQuestions randSel randWrong randOpts randShuffle
      statsFind config characters).map QuizQuestion.character).Perm
      (selectAdaptiveCharacters randSel
        (calculateCharacterWeights characters statsFind config)
        (min config.questionCount characters.length)) := by
    rw [← hq_map]
    exact hfinal.map _
  refine ⟨?_, ?_, ?_, ?_, ?_⟩
  · rw [← List.length_map _ QuizQuestion.character, hfinal_map.length_eq, hsel_len]
  · exact (hfinal_map.nodup_iff).mpr hsel_nodup
  · intro q hq
    have hq' : q.character ∈ (startQuizQuestions randSel randWrong randOpts
        randShuffle statsFind config characters).map QuizQuestion.character :=
      List.mem_map_of_mem _ hq
    exact hsel_sub _ (hfinal_map.subset hq')
  · intro hle
    refine hfinal_map.trans ?_
    have hlen : (selectAdaptiveCharacters randSel
        (calculateCharacterWeights characters statsFind config)
        (min config.questionCount characters.length)).length
        = characters.length := by
      rw [hsel_len]
      omega
    exact (hsel_nodup.subperm (fun c hc => hsel_sub c hc)).perm_of_length_le
      (by omega)
  · intro q hq
    have hqb : q ∈ buildQuestions randWrong randOpts
        (selectAdaptiveCharacters randSel
          (calculateCharacterWeights characters statsFind config)
          (min config.questionCount characters.length))
        (jsDedup (characters.map (fun c => c.reading))) config.optionsCount :=
      hfinal.subset hq
    rcases buildQuestionsGo_mem randWrong randOpts _ _ 0 _ q hqb with
      ⟨k', hsel, hca, hopt⟩
    have hspec := question_options_spec (randWrong k') (randOpts k') q.character
      (jsDedup (characters.map (fun c => c.reading)))
      (nodup_jsDedup _) config.optionsCount
    rcases hspec with ⟨hcount, hperm, hwnodup, hwmem, hwlen2⟩
    refine ⟨hca, ?_, ?_⟩
    · rw [hca, hopt]
      exact hcount
    · refine ⟨generateWrongOptions (randWrong k') q.character.reading
        (jsDedup (characters.map (fun c => c.reading))) (config.optionsCount - 1),
        ?_, hwnodup, ?_, hwlen2⟩
      · rw [hopt, hca]
        exact hperm
      · intro o ho
        rcases hwmem o ho with ⟨hmem, hne⟩
        rw [mem_jsDedup] at hmem
        refine ⟨?_, by rw [hca]; exact hne⟩
        simpa using hmem

/-- Witness for C5: a two-character module with `questionCount = 10` and
`optionsCount = 4` yields exactly two questions. -/
theorem c5_startQuizQuestions_witness :
    (startQuizQuestions (fun _ => 0) (fun _ _ => 0) (fun _ _ => 0) (fun _ => 0)
        (fun _ => none) DEFAULT_QUIZ_CONFIG
        [⟨0, "p", "a", "H"⟩, ⟨1, "q", "i", "H"⟩]).length
      = min DEFAULT_QUIZ_CONFIG.questionCount
          ([⟨0, "p", "a", "H"⟩, ⟨1, "q", "i", "H"⟩] : List Character).length :=
  (c5_startQuizQuestions (fun _ => 0) (fun _ _ => 0) (fun _ _ => 0) (fun _ => 0)
    (fun _ => none) DEFAULT_QUIZ_CONFIG
    [⟨0, "p", "a", "H"⟩, ⟨1, "q", "i", "H"⟩] (by decide)).1

end Hina
